import Mathlib

/-!
Verification of the dataset partitioning / batching subsystem of
`tools/datasets_satellite_into_sview.py`.

The `Dataset` class (and its split-kind subclasses) is shallowly embedded as a
pure state record `DState` together with explicit state-passing functions, one
per Python method.  Feature storage (h5py codes, satellite raster patches) and
the per-sample metadata table are abstracted to total accessor functions
`Nat → Int` (resp. `Nat → VRow`): the claims under verification concern which
sample indices are fetched and in which order, never the floating-point
contents, and the float normalisations (`normalize_features`,
`normalize_satellite`) are element-wise maps that do not affect any claim.
Randomness (`np.random.permutation` inside the balanced batch getters, and the
random selection inside `partitioning.decimate_partition_stratified`) is made
explicit as a permutation-valued parameter.
-/

/-- A metadata row of `self.vmap` (columns `img_id, pcd, oa11, lsoa11`,
line 48 of the source). -/
abbrev VRow := Nat × Nat × Nat × Nat

/-- Ceiling division on naturals, the value of
`np.int(np.ceil(a / b))` for non-negative integers and `b > 0`
(the repository enables true division via `from __future__ import division`). -/
def ceilDivNat (a b : Nat) : Nat := (a + b - 1) / b

/-- The mutable state of a `Dataset` object (lines 36-86).
`labels` holds the mapped labels (`map_labels` applied), `codes i v` abstracts
the street-view feature row of sample `i` for view `v`, `satPatch i` abstracts
the normalised satellite patch of sample `i`, and `label_types` is
`np.unique(labels)` over the population (sorted, duplicate-free). -/
structure DState where
  labels : Nat → Int
  codes : Nat → Nat → Int
  satPatch : Nat → Int
  vmap : Nat → VRow
  label_types : List Int
  train_part : List Nat
  test_part : List Nat
  validation_part : List Nat
  batch_ind : Nat
  batch_ind_test : Nat
  batch_ind_valid : Nat

/-- The value returned by `get_data_part` (line 116):
four view-feature blocks, the satellite patch block and the one-hot label
matrix, each with one row per fetched sample. -/
structure DataPart where
  d1 : List Int
  d2 : List Int
  d3 : List Int
  d4 : List Int
  img : List Int
  l : List (List Nat)

/-- `Dataset.__init__` (lines 37-86): population data is installed,
the three batch cursors start at `0` and the three partitions are the
empty placeholder lists. -/
def mkDataset (labels : Nat → Int) (codes : Nat → Nat → Int) (satPatch : Nat → Int)
    (vmap : Nat → VRow) (label_types : List Int) : DState :=
  { labels := labels
    codes := codes
    satPatch := satPatch
    vmap := vmap
    label_types := label_types
    train_part := []
    test_part := []
    validation_part := []
    batch_ind := 0
    batch_ind_test := 0
    batch_ind_valid := 0 }

/-- One-hot label row (lines 104-107): column `k` is `1` exactly when the
sample's label equals `label_types[k]`. -/
def oneHotRow (types : List Int) (lab : Int) : List Nat :=
  types.map fun t => if lab = t then 1 else 0

/-- `Dataset.get_data_part(rows)` (lines 90-116, called without noise by every
caller in the file): the request indices are sorted (`srows = sorted(rows)`,
line 91) and every returned block is indexed by the sorted list. -/
def get_data_part (s : DState) (rows : List Nat) : DataPart :=
  let srows := rows.insertionSort (fun a b => a ≤ b)
  { d1 := srows.map fun i => s.codes i 0
    d2 := srows.map fun i => s.codes i 1
    d3 := srows.map fun i => s.codes i 2
    d4 := srows.map fun i => s.codes i 3
    img := srows.map s.satPatch
    l := srows.map fun i => oneHotRow s.label_types (s.labels i) }

/-- The slice `self.train_part[self.batch_ind : self.batch_ind + batch_size]`
of line 119. -/
def trainBatchRows (s : DState) (batch_size : Nat) : List Nat :=
  (s.train_part.drop s.batch_ind).take batch_size

/-- The slice of line 142 (validation). -/
def validBatchRows (s : DState) (batch_size : Nat) : List Nat :=
  (s.validation_part.drop s.batch_ind_valid).take batch_size

/-- The slice of line 165 (test). -/
def testBatchRows (s : DState) (batch_size : Nat) : List Nat :=
  (s.test_part.drop s.batch_ind_test).take batch_size

/-- `Dataset.get_train_batch` (lines 118-124): fetch the cursor slice, advance
the cursor by `batch_size` and reset it to `0` once it reaches the end of the
train partition. -/
def get_train_batch (s : DState) (batch_size : Nat) : DataPart × DState :=
  let rows := trainBatchRows s batch_size
  let bi := s.batch_ind + batch_size
  let bi := if s.train_part.length ≤ bi then 0 else bi
  (get_data_part s rows, { s with batch_ind := bi })

/-- `Dataset.get_validation_batch` (lines 141-147). -/
def get_validation_batch (s : DState) (batch_size : Nat) : DataPart × DState :=
  let rows := validBatchRows s batch_size
  let bi := s.batch_ind_valid + batch_size
  let bi := if s.validation_part.length ≤ bi then 0 else bi
  (get_data_part s rows, { s with batch_ind_valid := bi })

/-- `Dataset.get_test_batch` (lines 164-170). -/
def get_test_batch (s : DState) (batch_size : Nat) : DataPart × DState :=
  let rows := testBatchRows s batch_size
  let bi := s.batch_ind_test + batch_size
  let bi := if s.test_part.length ≤ bi then 0 else bi
  (get_data_part s rows, { s with batch_ind_test := bi })

/-- The positions inside `part` of the samples whose label is `l`:
`np.where(self.labels[part] == l)[0]` (lines 131 and 154). -/
def wherePositions (s : DState) (part : List Nat) (l : Int) : List Nat :=
  (List.range part.length).filter fun j => s.labels (part.getD j 0) == l

/-- One per-class chunk of a balanced batch (lines 131-132 / 154-155):
permute the class positions with the ambient randomness `π`, keep the first
`lbs`, and map positions back to sample indices. -/
def classChunk (π : Int → List Nat → List Nat) (s : DState) (part : List Nat)
    (lbs : Nat) (l : Int) : List Nat :=
  ((π l (wherePositions s part l)).take lbs).map fun j => part.getD j 0

/-- The sample indices assembled by `get_balanced_train_batch`
(lines 126-133): `batch_size // num_classes` per class, classes in
`label_types` order. -/
def balancedTrainRows (π : Int → List Nat → List Nat) (s : DState)
    (batch_size : Nat) : List Nat :=
  (s.label_types.map
    (classChunk π s s.train_part (batch_size / s.label_types.length))).flatten

/-- `Dataset.get_balanced_train_batch` (lines 126-134).  No state field is
assigned, so the state component of the result is the input state. -/
def get_balanced_train_batch (π : Int → List Nat → List Nat) (s : DState)
    (batch_size : Nat) : DataPart × DState :=
  (get_data_part s (balancedTrainRows π s batch_size), s)

/-- The sample indices assembled by `get_balanced_validation_batch`
(lines 149-156). -/
def balancedValidRows (π : Int → List Nat → List Nat) (s : DState)
    (batch_size : Nat) : List Nat :=
  (s.label_types.map
    (classChunk π s s.validation_part (batch_size / s.label_types.length))).flatten

/-- `Dataset.get_balanced_validation_batch` (lines 149-157). -/
def get_balanced_validation_batch (π : Int → List Nat → List Nat) (s : DState)
    (batch_size : Nat) : DataPart × DState :=
  (get_data_part s (balancedValidRows π s batch_size), s)

/-- The index slices produced by `test_iterator` (lines 177-181):
`num_iter = int(ceil(len(test_part) / batch_num))` batches, the `n`-th being
`test_part[n*batch_num : (n+1)*batch_num]`. -/
def testIteratorRows (s : DState) (batch_num : Nat) : List (List Nat) :=
  (List.range (ceilDivNat s.test_part.length batch_num)).map fun n =>
    (s.test_part.drop (n * batch_num)).take batch_num

/-- `Dataset.test_iterator` (lines 177-181): each yielded element pairs the
fetched data with `vmap[sorted(rows), :]`. -/
def test_iterator (s : DState) (batch_num : Nat) : List (DataPart × List VRow) :=
  (testIteratorRows s batch_num).map fun rows =>
    (get_data_part s rows, (rows.insertionSort (fun a b => a ≤ b)).map s.vmap)

/-- The index slices produced by `validation_iterator` (lines 183-187). -/
def validIteratorRows (s : DState) (batch_num : Nat) : List (List Nat) :=
  (List.range (ceilDivNat s.validation_part.length batch_num)).map fun n =>
    (s.validation_part.drop (n * batch_num)).take batch_num

/-- `Dataset.validation_iterator` (lines 183-187). -/
def validation_iterator (s : DState) (batch_num : Nat) : List DataPart :=
  (validIteratorRows s batch_num).map (get_data_part s)

/-- The data matrix written by `Dataset.write_preds` (lines 189-194):
one row per entry of `sorted(test_part)`, each row being the metadata columns,
the true (mapped) label and the aligned prediction.  `np.append` along axis 1
requires `preds` to have exactly one entry per test sample. -/
def write_preds_rows (s : DState) (preds : List Int) : List (VRow × Int × Int) :=
  let srows := s.test_part.insertionSort (fun a b => a ≤ b)
  srows.zipWith (fun i p => (s.vmap i, s.labels i, p)) preds

/-- The data matrix written by `Dataset_TVT.write_preds_validation`
(lines 302-307): as `write_preds` but over `validation_part`; the
`np.append(..., axis=1)` of line 305 raises `ValueError` (modelled as `none`)
unless `preds` has exactly one entry per validation sample. -/
def write_preds_validation_rows (s : DState) (preds : List Int) :
    Option (List (VRow × Int × Int)) :=
  let srows := s.validation_part.insertionSort (fun a b => a ≤ b)
  if preds.length = srows.length then
    some (srows.zipWith (fun i p => (s.vmap i, s.labels i, p)) preds)
  else none

/-- `k` consecutive `get_train_batch` calls, collecting each call's fetched
index slice together with the final state. -/
def runTrainBatches (batch_size : Nat) : Nat → DState → List (List Nat) × DState
  | 0, s => ([], s)
  | k + 1, s =>
      let rows := trainBatchRows s batch_size
      let rest := runTrainBatches batch_size k (get_train_batch s batch_size).2
      (rows :: rest.1, rest.2)

/-- `k` consecutive `get_test_batch` calls. -/
def runTestBatches (batch_size : Nat) : Nat → DState → List (List Nat) × DState
  | 0, s => ([], s)
  | k + 1, s =>
      let rows := testBatchRows s batch_size
      let rest := runTestBatches batch_size k (get_test_batch s batch_size).2
      (rows :: rest.1, rest.2)

/-- Modelled from the spec: `partitioning.get_partition_stratified_kfold`
(the `partitioning` module is imported by the source but absent here).
Spec §4.1: test is `kpartitions[fold_index]`, train is the union of the
remaining folds. -/
def get_partition_stratified_kfold (fold_index : Nat)
    (kpartitions : List (List Nat)) : List Nat × List Nat :=
  ((kpartitions.take fold_index ++ kpartitions.drop (fold_index + 1)).flatten,
   kpartitions.getD fold_index [])

/-- Modelled from the spec: `partitioning.decimate_partition_stratified`
(absent `partitioning` module).  Spec §4.1: randomly selects a stratified
subset of fraction `psize` of an existing partition per class and, when used
to carve a validation split, also returns the remainder.  The random draw is
made explicit as the per-class permutation `π`; `psize` is the rational
`psizeNum / psizeDen`. -/
def decimate_partition_stratified (labels : Nat → Int) (label_types : List Int)
    (part : List Nat) (psizeNum psizeDen : Nat)
    (π : Int → List Nat → List Nat) : List Nat × List Nat :=
  let chunks := label_types.map fun l =>
    let members := part.filter fun r => labels r == l
    let permuted := π l members
    let kcount := psizeNum * members.length / psizeDen
    (permuted.take kcount, permuted.drop kcount)
  ((chunks.map fun c => c.1).flatten, (chunks.map fun c => c.2).flatten)

/-- `Dataset_CrossValidation.pick_label` (lines 206-246).  In generation mode
(`part_gen == 1`) the stratified k-fold partitioning is computed (its result,
produced by the absent `partitioning` module from the seed, is the parameter
`computedKparts`) and written to the partition file; otherwise the previously
written file contents `storedKparts` are read back.  Either way fold
`part_kp` becomes test, the remaining folds become the raw train part, and
when `vsize > 0` (vsize is the rational `vsizeNum / vsizeDen`) the train part
is split into train and validation by a fresh call to
`decimate_partition_stratified` with `psize = 1 - vsize`, whose ambient
randomness is `π`.  The second component of the result is the partition-file
contents after the call. -/
def pick_label_cv (s : DState) (part_gen : Bool)
    (computedKparts storedKparts : List (List Nat)) (part_kp : Nat)
    (vsizeNum vsizeDen : Nat) (π : Int → List Nat → List Nat) :
    DState × List (List Nat) :=
  let kparts := if part_gen then computedKparts else storedKparts
  let tp := get_partition_stratified_kfold part_kp kparts
  if 0 < vsizeNum then
    let dec := decimate_partition_stratified s.labels s.label_types tp.1
      (vsizeDen - vsizeNum) vsizeDen π
    ({ s with train_part := dec.1, validation_part := dec.2,
              test_part := tp.2 }, kparts)
  else
    ({ s with train_part := tp.1, test_part := tp.2 }, kparts)

/-- `Dataset_TVT.pick_label` (lines 262-300).  The three-way stratified
partitioning computed in generation mode is the parameter `computed`
(train, validation, test); in load mode the three persisted files are read
back as `stored`.  When `psize < 1.0` the train part is decimated with fresh
randomness `π`; the source assigns only the subset (line 298).  The second
component is the persisted file triple after the call. -/
def pick_label_tvt (s : DState) (part_gen : Bool)
    (computed stored : List Nat × List Nat × List Nat)
    (psizeNum psizeDen : Nat) (π : Int → List Nat → List Nat) :
    DState × (List Nat × List Nat × List Nat) :=
  let tvt := if part_gen then computed else stored
  let train :=
    if psizeNum < psizeDen then
      (decimate_partition_stratified s.labels s.label_types tvt.1
        psizeNum psizeDen π).1
    else tvt.1
  ({ s with train_part := train, validation_part := tvt.2.1,
            test_part := tvt.2.2 }, tvt)

/-- `Dataset_TT.pick_label` (lines 322-358): two-way stratified split,
generated (`computed`) or loaded (`stored`); optional decimation of the train
part.  `validation_part` is never assigned. -/
def pick_label_tt (s : DState) (part_gen : Bool)
    (computed stored : List Nat × List Nat)
    (psizeNum psizeDen : Nat) (π : Int → List Nat → List Nat) : DState :=
  let tp := if part_gen then computed else stored
  let train :=
    if psizeNum < psizeDen then
      (decimate_partition_stratified s.labels s.label_types tp.1
        psizeNum psizeDen π).1
    else tp.1
  { s with train_part := train, test_part := tp.2 }

/-- `Dataset_TT_byclass.pick_label` (lines 389-426): identical state shape to
`Dataset_TT.pick_label`, the generated split coming from
`partitioning.partition_by_class` instead.  `validation_part` is never
assigned. -/
def pick_label_tt_byclass (s : DState) (part_gen : Bool)
    (computed stored : List Nat × List Nat)
    (psizeNum psizeDen : Nat) (π : Int → List Nat → List Nat) : DState :=
  let tp := if part_gen then computed else stored
  let train :=
    if psizeNum < psizeDen then
      (decimate_partition_stratified s.labels s.label_types tp.1
        psizeNum psizeDen π).1
    else tp.1
  { s with train_part := train, test_part := tp.2 }

/-- `Dataset_TT.get_validation_batch` (lines 360-361): delegates to the train
batch getter. -/
def tt_get_validation_batch (s : DState) (batch_size : Nat) : DataPart × DState :=
  get_train_batch s batch_size

/-- `Dataset_TT.get_balanced_validation_batch` (lines 363-364). -/
def tt_get_balanced_validation_batch (π : Int → List Nat → List Nat)
    (s : DState) (batch_size : Nat) : DataPart × DState :=
  get_balanced_train_batch π s batch_size

/-- `Dataset_TT_byclass.get_validation_batch` (lines 428-429). -/
def tt_byclass_get_validation_batch (s : DState) (batch_size : Nat) :
    DataPart × DState :=
  get_train_batch s batch_size

/-- `Dataset_TT_byclass.get_balanced_validation_batch` (lines 431-432). -/
def tt_byclass_get_balanced_validation_batch (π : Int → List Nat → List Nat)
    (s : DState) (batch_size : Nat) : DataPart × DState :=
  get_balanced_train_batch π s batch_size

/-- The data matrix written by `Dataset_TT.write_preds_validation`
(lines 366-371): rows come from `sorted(self.validation_part)`.  The second
`np.append(..., axis=1)` on line 369 requires `preds` to have exactly one
entry per row of `data_matrix` (shape `(|srows|, 5)` against
`(|preds|, 1)`); on a length mismatch it raises `ValueError` and the call
aborts, modelled as `none`. -/
def tt_write_preds_validation_rows (s : DState) (preds : List Int) :
    Option (List (VRow × Int × Int)) :=
  let srows := s.validation_part.insertionSort (fun a b => a ≤ b)
  if preds.length = srows.length then
    some (srows.zipWith (fun i p => (s.vmap i, s.labels i, p)) preds)
  else none

/-- The data matrix written by `Dataset_TT_byclass.write_preds_validation`
(lines 434-439), textually identical to the `Dataset_TT` version, with the
same aborting `ValueError` (`none`) on a prediction-length mismatch
(line 437). -/
def tt_byclass_write_preds_validation_rows (s : DState) (preds : List Int) :
    Option (List (VRow × Int × Int)) :=
  let srows := s.validation_part.insertionSort (fun a b => a ≤ b)
  if preds.length = srows.length then
    some (srows.zipWith (fun i p => (s.vmap i, s.labels i, p)) preds)
  else none

/-- Modelled from the spec, for comparison with the code (spec §4.2: a
subclass without a real validation partition routes validation writes onto the
training partition): validation prediction rows drawn from the training
partition. -/
def write_preds_validation_train_routed (s : DState) (preds : List Int) :
    List (VRow × Int × Int) :=
  let srows := s.train_part.insertionSort (fun a b => a ≤ b)
  srows.zipWith (fun i p => (s.vmap i, s.labels i, p)) preds

/-- Modelled from the spec, for comparison with the code (spec §9: the fetch
contract sorts indices internally and returns results re-expanded to the
original request order): `get_data_part` with output rows in the original
request order. -/
def get_data_part_request_order (s : DState) (rows : List Nat) : DataPart :=
  { d1 := rows.map fun i => s.codes i 0
    d2 := rows.map fun i => s.codes i 1
    d3 := rows.map fun i => s.codes i 2
    d4 := rows.map fun i => s.codes i 3
    img := rows.map s.satPatch
    l := rows.map fun i => oneHotRow s.label_types (s.labels i) }

/-- A freshly constructed single-class Dataset (pick_label not yet called). -/
def c7State : DState :=
  mkDataset (fun _ => 0) (fun i _ => Int.ofNat i) (fun i => Int.ofNat i)
    (fun n => (n, 0, 0, 0)) [0]

/-- A Dataset_TT state reached by construction followed by pick_label in
generation mode with train [10, 11], test [12] and psize = 1. -/
def c4State : DState :=
  pick_label_tt
    (mkDataset (fun _ => 0) (fun i _ => Int.ofNat i) (fun i => Int.ofNat i)
      (fun n => (n, 0, 0, 0)) [0])
    true ([10, 11], [12]) ([], []) 1 1 (fun _ xs => xs)

/-- A freshly constructed single-class Dataset used for the k-fold
load-versus-generation comparison. -/
def c3Base : DState :=
  mkDataset (fun _ => 0) (fun i _ => Int.ofNat i) (fun i => Int.ofNat i)
    (fun n => (n, 0, 0, 0)) [0]

/-- A two-sample Dataset whose feature rows identify the sample
(codes i v = i), used to observe the output order of get_data_part. -/
def c2State : DState :=
  mkDataset (fun n => if n = 0 then 0 else 1) (fun i _ => Int.ofNat i)
    (fun i => Int.ofNat i) (fun n => (n, 0, 0, 0)) [0, 1]

/-- A partitioned Dataset with train [0..4], test [5, 6, 7] and all cursors
at 0. -/
def w1State : DState :=
  { mkDataset (fun n => Int.ofNat (n % 3)) (fun i _ => Int.ofNat i)
      (fun i => Int.ofNat i) (fun n => (n, 0, 0, 0)) [0, 1, 2] with
    train_part := [0, 1, 2, 3, 4]
    test_part := [5, 6, 7] }

/-- A three-class Dataset (labels n % 3) with twelve train samples, four per
class. -/
def w5State : DState :=
  { mkDataset (fun n => Int.ofNat (n % 3)) (fun i _ => Int.ofNat i)
      (fun i => Int.ofNat i) (fun n => (n, 0, 0, 0)) [0, 1, 2] with
    train_part := [0, 1, 2, 3, 4, 5, 6, 7, 8, 9, 10, 11] }

/-- A partitioned Dataset with test [0, 1, 2] and validation [3, 4]. -/
def w6State : DState :=
  { mkDataset (fun n => Int.ofNat (n % 3)) (fun i _ => Int.ofNat i)
      (fun i => Int.ofNat i) (fun n => (n, 0, 0, 0)) [0, 1, 2] with
    test_part := [0, 1, 2]
    validation_part := [3, 4] }

/-- A partitioned Dataset with the unsorted, duplicate-free test partition
[2, 0, 1]. -/
def w8State : DState :=
  { mkDataset (fun n => Int.ofNat (n % 3)) (fun i _ => Int.ofNat i)
      (fun i => Int.ofNat i) (fun n => (n, 0, 0, 0)) [0, 1, 2] with
    test_part := [2, 0, 1] }

/-- A partitioned Dataset with train [4, 5, 6]. -/
def w9State : DState :=
  { mkDataset (fun n => Int.ofNat (n % 3)) (fun i _ => Int.ofNat i)
      (fun i => Int.ofNat i) (fun n => (n, 0, 0, 0)) [0, 1, 2] with
    train_part := [4, 5, 6] }

/-- Claim C2 (amended): get_data_part(rows) returns the feature vectors,
satellite patches and one-hot labels of exactly the samples in rows (the
fetched index list is a permutation of the request), but positioned in
ascending sample-index order, not in the possibly unsorted request order. -/
theorem get_data_part_sorted_order (s : DState) (rows : List Nat) :
    (get_data_part s rows).d1 =
      (rows.insertionSort (fun a b => a ≤ b)).map (fun i => s.codes i 0)
  ∧ (get_data_part s rows).img =
      (rows.insertionSort (fun a b => a ≤ b)).map s.satPatch
  ∧ (get_data_part s rows).l =
      (rows.insertionSort (fun a b => a ≤ b)).map
        (fun i => oneHotRow s.label_types (s.labels i))
  ∧ (rows.insertionSort (fun a b => a ≤ b)).Perm rows
  ∧ List.Sorted (fun a b => a ≤ b) (rows.insertionSort (fun a b => a ≤ b)) :=
  ⟨rfl, rfl, rfl, List.perm_insertionSort _ _, List.sorted_insertionSort _ _⟩

/-- Claim C2 counterexample: on the request [1, 0] the feature block returned
by the code is in ascending index order [0, 1], not re-expanded to the
caller's request order [1, 0] as the claim states. -/
theorem get_data_part_order_counterexample :
    (get_data_part c2State [1, 0]).d1 = [0, 1]
  ∧ (get_data_part_request_order c2State [1, 0]).d1 = [1, 0]
  ∧ (get_data_part c2State [1, 0]).d1 ≠
      (get_data_part_request_order c2State [1, 0]).d1 := by
  refine ⟨rfl, rfl, ?_⟩
  decide

/-- Claim C3 counterexample: k-fold mode with the default-style vsize = 1/2.
Generation (ambient decimation randomness = identity permutation) persists the
folds [[0,1],[2,3]] and ends with train_part [2]; a later load of those same
persisted folds (fresh ambient randomness = reverse permutation) re-runs the
decimation and ends with train_part [3].  The loaded run's partitions differ
from those in effect at generation time. -/
theorem pick_label_load_recompute_counterexample :
    (pick_label_cv c3Base true [[0, 1], [2, 3]] [] 0 1 2 (fun _ xs => xs)).2 =
      [[0, 1], [2, 3]]
  ∧ (pick_label_cv c3Base true [[0, 1], [2, 3]] [] 0 1 2
      (fun _ xs => xs)).1.train_part = [2]
  ∧ (pick_label_cv c3Base false [] [[0, 1], [2, 3]] 0 1 2
      (fun _ xs => xs.reverse)).1.train_part = [3]
  ∧ (pick_label_cv c3Base true [[0, 1], [2, 3]] [] 0 1 2
        (fun _ xs => xs)).1.train_part ≠
      (pick_label_cv c3Base false [] [[0, 1], [2, 3]] 0 1 2
        (fun _ xs => xs.reverse)).1.train_part := by
  refine ⟨rfl, ?_, ?_, ?_⟩ <;> decide

/-- Claim C3 (amended): in every split mode what is persisted round-trips
bit-identically, and when no decimation runs on load (vsize = 0 in k-fold
mode, psize = 1 in the train/validation/test, train/test and
train/test-by-class modes) the load-mode partitions are exactly those of
generation time, with no recomputation; with vsize > 0 or psize < 1 the
train/validation decimation is re-run with fresh randomness on load. -/
theorem pick_label_load_matches_generation (s : DState)
    (K D : List (List Nat)) (kp d : Nat)
    (π πload : Int → List Nat → List Nat)
    (tvt X : List Nat × List Nat × List Nat)
    (tp X2 : List Nat × List Nat) (psD : Nat) :
    (pick_label_cv s true K D kp 0 d π).2 = K
  ∧ (pick_label_cv s false D K kp 0 d πload).1 =
      (pick_label_cv s true K D kp 0 d π).1
  ∧ (pick_label_tvt s true tvt X psD psD π).2 = tvt
  ∧ (pick_label_tvt s false X tvt psD psD πload).1 =
      (pick_label_tvt s true tvt X psD psD π).1
  ∧ (pick_label_tvt s false X tvt psD psD πload).1.train_part = tvt.1
  ∧ (pick_label_tvt s false X tvt psD psD πload).1.validation_part = tvt.2.1
  ∧ (pick_label_tvt s false X tvt psD psD πload).1.test_part = tvt.2.2
  ∧ pick_label_tt s false X2 tp psD psD πload =
      pick_label_tt s true tp X2 psD psD π
  ∧ (pick_label_tt s false X2 tp psD psD πload).train_part = tp.1
  ∧ (pick_label_tt s false X2 tp psD psD πload).test_part = tp.2
  ∧ pick_label_tt_byclass s false X2 tp psD psD πload =
      pick_label_tt_byclass s true tp X2 psD psD π
  ∧ (pick_label_tt_byclass s false X2 tp psD psD πload).train_part = tp.1
  ∧ (pick_label_tt_byclass s false X2 tp psD psD πload).test_part = tp.2 := by
  refine ⟨?_, ?_, ?_, ?_, ?_, ?_, ?_, ?_, ?_, ?_, ?_, ?_, ?_⟩ <;>
    simp [pick_label_cv, pick_label_tvt, pick_label_tt, pick_label_tt_byclass]

/-- Claim C4 (amended): in Dataset_TT and Dataset_TT_byclass the validation
batch getters return exactly what the corresponding train batch getters
return, and pick_label never assigns the validation partition, which therefore
remains the empty placeholder; write_preds_validation, however, draws its rows
from that (empty) validation partition, not from the training partition: with
a non-empty prediction array the `np.append` shape check fails and the call
aborts with a ValueError, and with an empty prediction array it writes an
empty table — in no case does it write rows drawn from the training
partition. -/
theorem tt_validation_routing (s : DState) (batch_size : Nat)
    (π : Int → List Nat → List Nat) (preds : List Int) :
    tt_get_validation_batch s batch_size = get_train_batch s batch_size
  ∧ tt_get_balanced_validation_batch π s batch_size =
      get_balanced_train_batch π s batch_size
  ∧ tt_byclass_get_validation_batch s batch_size = get_train_batch s batch_size
  ∧ tt_byclass_get_balanced_validation_batch π s batch_size =
      get_balanced_train_batch π s batch_size
  ∧ (∀ pg comp stored a b π2,
      (pick_label_tt s pg comp stored a b π2).validation_part =
        s.validation_part)
  ∧ (∀ pg comp stored a b π2,
      (pick_label_tt_byclass s pg comp stored a b π2).validation_part =
        s.validation_part)
  ∧ (s.validation_part = [] → preds ≠ [] →
      tt_write_preds_validation_rows s preds = none
      ∧ tt_byclass_write_preds_validation_rows s preds = none)
  ∧ (s.validation_part = [] →
      tt_write_preds_validation_rows s [] = some []
      ∧ tt_byclass_write_preds_validation_rows s [] = some []) := by
  refine ⟨rfl, rfl, rfl, rfl, fun _ _ _ _ _ _ => rfl, fun _ _ _ _ _ _ => rfl,
    fun h hp => ?_, fun h => ?_⟩
  · constructor <;>
      simp [tt_write_preds_validation_rows,
        tt_byclass_write_preds_validation_rows, h, List.length_eq_zero, hp]
  · constructor <;>
      simp [tt_write_preds_validation_rows,
        tt_byclass_write_preds_validation_rows, h]

/-- Claim C4 witness: the amended theorem applied to the concrete reachable
Dataset_TT state with train [10, 11], empty validation placeholder and the
non-empty prediction array [5, 6]: the write aborts. -/
theorem tt_validation_routing_witness :
    tt_write_preds_validation_rows c4State [5, 6] = none :=
  ((tt_validation_routing c4State 3 (fun _ xs => xs) [5, 6]).2.2.2.2.2.2.1
    rfl (by decide)).1

/-- Claim C4 counterexample: on the reachable Dataset_TT state with train
[10, 11] and the empty validation placeholder, write_preds_validation with
predictions [5, 6] aborts with a ValueError (the `np.append` of a (0, 5)
matrix with a (2, 1) column, line 369); it does not write rows drawn from the
training partition as the claim states (the train-routed write would produce
the two train rows). -/
theorem tt_write_preds_validation_counterexample :
    tt_write_preds_validation_rows c4State [5, 6] = none
  ∧ write_preds_validation_train_routed c4State [5, 6] =
      [((10, 0, 0, 0), 0, 5), ((11, 0, 0, 0), 0, 6)]
  ∧ tt_write_preds_validation_rows c4State [5, 6] ≠
      some (write_preds_validation_train_routed c4State [5, 6]) := by
  refine ⟨rfl, ?_, ?_⟩ <;> decide

/-- Claim C7 (amended): a Dataset constructed but not yet partitioned has the
empty placeholder partitions, and a batch operation called in that state does
not abort: it returns a normal (empty) result and silently resets its cursor
to 0. -/
theorem pre_pick_label_batch_returns_empty :
    (∀ labels codes satPatch vmap ltypes,
        (mkDataset labels codes satPatch vmap ltypes).train_part = []
      ∧ (mkDataset labels codes satPatch vmap ltypes).validation_part = []
      ∧ (mkDataset labels codes satPatch vmap ltypes).test_part = [])
  ∧ (∀ s batch_size, s.train_part = [] →
      get_train_batch s batch_size = (get_data_part s [], { s with batch_ind := 0 }))
  ∧ (∀ s batch_size, s.validation_part = [] →
      get_validation_batch s batch_size =
        (get_data_part s [], { s with batch_ind_valid := 0 }))
  ∧ (∀ s batch_size, s.test_part = [] →
      get_test_batch s batch_size =
        (get_data_part s [], { s with batch_ind_test := 0 })) := by
  refine ⟨fun _ _ _ _ _ => ⟨rfl, rfl, rfl⟩, fun s bs h => ?_, fun s bs h => ?_,
    fun s bs h => ?_⟩ <;>
    simp [get_train_batch, get_validation_batch, get_test_batch,
      trainBatchRows, validBatchRows, testBatchRows, h]

/-- Claim C7 witness: the amended theorem applied to the freshly constructed
dataset; get_train_batch(4) returns the empty batch and the unchanged state. -/
theorem pre_pick_label_batch_returns_empty_witness :
    get_train_batch c7State 4 = (get_data_part c7State [], { c7State with batch_ind := 0 }) :=
  pre_pick_label_batch_returns_empty.2.1 c7State 4 rfl

/-- Claim C7 counterexample: on the freshly constructed Dataset (pick_label
never called), get_train_batch(4) does not abort with any error: it returns a
normal result — the empty data part — and leaves the state unchanged.  The
source has no state check and no raise path in any batch getter
(lines 118-124, 141-147, 164-170). -/
theorem pre_pick_label_batch_counterexample :
    get_train_batch c7State 4 = (get_data_part c7State [], c7State)
  ∧ (get_train_batch c7State 4).1.l = [] := ⟨rfl, rfl⟩

/-- Claim C9: after construction all three batch cursors are 0; after any
sequential batch call on a non-empty corresponding partition the corresponding
cursor is strictly below the partition length; and each call changes only its
own cursor, leaving the other cursors and all three partitions untouched. -/
theorem cursor_invariants :
    (∀ labels codes satPatch vmap ltypes,
        (mkDataset labels codes satPatch vmap ltypes).batch_ind = 0
      ∧ (mkDataset labels codes satPatch vmap ltypes).batch_ind_valid = 0
      ∧ (mkDataset labels codes satPatch vmap ltypes).batch_ind_test = 0)
  ∧ (∀ s batch_size, s.train_part ≠ [] →
      (get_train_batch s batch_size).2.batch_ind < s.train_part.length)
  ∧ (∀ s batch_size, s.validation_part ≠ [] →
      (get_validation_batch s batch_size).2.batch_ind_valid <
        s.validation_part.length)
  ∧ (∀ s batch_size, s.test_part ≠ [] →
      (get_test_batch s batch_size).2.batch_ind_test < s.test_part.length)
  ∧ (∀ s batch_size,
        (get_train_batch s batch_size).2.batch_ind_valid = s.batch_ind_valid
      ∧ (get_train_batch s batch_size).2.batch_ind_test = s.batch_ind_test
      ∧ (get_train_batch s batch_size).2.train_part = s.train_part
      ∧ (get_train_batch s batch_size).2.validation_part = s.validation_part
      ∧ (get_train_batch s batch_size).2.test_part = s.test_part)
  ∧ (∀ s batch_size,
        (get_validation_batch s batch_size).2.batch_ind = s.batch_ind
      ∧ (get_validation_batch s batch_size).2.batch_ind_test = s.batch_ind_test
      ∧ (get_validation_batch s batch_size).2.train_part = s.train_part
      ∧ (get_validation_batch s batch_size).2.validation_part = s.validation_part
      ∧ (get_validation_batch s batch_size).2.test_part = s.test_part)
  ∧ (∀ s batch_size,
        (get_test_batch s batch_size).2.batch_ind = s.batch_ind
      ∧ (get_test_batch s batch_size).2.batch_ind_valid = s.batch_ind_valid
      ∧ (get_test_batch s batch_size).2.train_part = s.train_part
      ∧ (get_test_batch s batch_size).2.validation_part = s.validation_part
      ∧ (get_test_batch s batch_size).2.test_part = s.test_part) := by
  refine ⟨fun _ _ _ _ _ => ⟨rfl, rfl, rfl⟩, fun s bs h => ?_, fun s bs h => ?_,
    fun s bs h => ?_, fun s bs => ⟨rfl, rfl, rfl, rfl, rfl⟩,
    fun s bs => ⟨rfl, rfl, rfl, rfl, rfl⟩,
    fun s bs => ⟨rfl, rfl, rfl, rfl, rfl⟩⟩ <;>
  · have hlen := List.length_pos.mpr h
    simp only [get_train_batch, get_validation_batch, get_test_batch]
    split <;> omega

/-- Claim C9 witness: the invariant applied to the concrete state with train
partition [4, 5, 6] and batch size 2. -/
theorem cursor_invariants_witness :
    (get_train_batch w9State 2).2.batch_ind < 3 :=
  cursor_invariants.2.1 w9State 2 (by decide)

/-- Claim C10: the balanced batch getters assign no state field: the state
component of their result is the input state itself, so all three batch
cursors and all three partition lists are unchanged by drawing a balanced
batch. -/
theorem balanced_batches_frame (π : Int → List Nat → List Nat) (s : DState)
    (batch_size : Nat) :
    (get_balanced_train_batch π s batch_size).2 = s
  ∧ (get_balanced_validation_batch π s batch_size).2 = s := ⟨rfl, rfl⟩

/-- For positive `n` and `bs`, `ceilDivNat n bs` batches of size `bs` are
enough to cover `n` elements, and one fewer is not. -/
theorem ceilDivNat_bounds (n bs : Nat) (hn : 0 < n) (hbs : 0 < bs) :
    n ≤ ceilDivNat n bs * bs ∧ (ceilDivNat n bs - 1) * bs < n := by
  have h1 : ceilDivNat n bs = (n - 1) / bs + 1 := by
    unfold ceilDivNat
    have h : n + bs - 1 = (n - 1) + bs := by omega
    rw [h, Nat.add_div_right _ hbs]
  have hdm := Nat.div_add_mod (n - 1) bs
  have hmod : (n - 1) % bs < bs := Nat.mod_lt _ hbs
  have hc : bs * ((n - 1) / bs) = (n - 1) / bs * bs := Nat.mul_comm _ _
  have hsucc : ((n - 1) / bs + 1) * bs = (n - 1) / bs * bs + bs :=
    Nat.succ_mul _ _
  constructor
  · rw [h1, hsucc]; omega
  · rw [h1]; simp only [Nat.add_sub_cancel]; omega

/-- Core epoch lemma for the train cursor: if the cursor is in range and `k`
is exactly the number of batches needed to exhaust the remaining part of the
train partition, then `k` consecutive `get_train_batch` calls fetch, in
concatenation, exactly the remaining suffix, every batch but the last has full
size, and the final state is the input state with the cursor back at `0`. -/
theorem runTrainBatches_core (batch_size : Nat) :
    ∀ k (s : DState), s.batch_ind < s.train_part.length →
      s.train_part.length ≤ s.batch_ind + k * batch_size →
      s.batch_ind + (k - 1) * batch_size < s.train_part.length →
      (runTrainBatches batch_size k s).1.flatten = s.train_part.drop s.batch_ind
      ∧ (runTrainBatches batch_size k s).2 = { s with batch_ind := 0 }
      ∧ ∀ i, i + 1 < k →
          ((runTrainBatches batch_size k s).1.getD i []).length = batch_size := by
  intro k
  induction k with
  | zero =>
      intro s h1 h2 h3
      simp only [Nat.zero_mul, Nat.add_zero] at h2
      omega
  | succ k ih =>
      intro s h1 h2 h3
      have hsucc : (k + 1) * batch_size = k * batch_size + batch_size :=
        Nat.succ_mul _ _
      simp only [Nat.add_sub_cancel] at h3
      by_cases hend : s.train_part.length ≤ s.batch_ind + batch_size
      · have hk0 : k = 0 := by
          rcases Nat.eq_zero_or_pos k with h | h
          · exact h
          · exfalso
            have hb : batch_size ≤ k * batch_size := by
              calc batch_size = 1 * batch_size := (Nat.one_mul _).symm
                _ ≤ k * batch_size := Nat.mul_le_mul_right _ h
            omega
        subst hk0
        have hrows : trainBatchRows s batch_size =
            s.train_part.drop s.batch_ind := by
          apply List.take_of_length_le
          rw [List.length_drop]; omega
        have hstate : (get_train_batch s batch_size).2 =
            { s with batch_ind := 0 } := by
          simp [get_train_batch, hend]
        refine ⟨?_, ?_, ?_⟩
        · simp [runTrainBatches, hrows]
        · simp [runTrainBatches, hstate]
        · intro i hi; omega
      · have hlt : s.batch_ind + batch_size < s.train_part.length := by omega
        have hstate : (get_train_batch s batch_size).2 =
            { s with batch_ind := s.batch_ind + batch_size } := by
          simp [get_train_batch, hend]
        have hk1 : 1 ≤ k := by
          rcases Nat.eq_zero_or_pos k with h | h
          · exfalso; subst h
            simp only [Nat.zero_add, Nat.one_mul] at h2
            omega
          · exact h
        have hpred : (k - 1) * batch_size + batch_size = k * batch_size := by
          cases k with
          | zero => omega
          | succ k2 =>
              simp only [Nat.add_sub_cancel]
              exact (Nat.succ_mul k2 batch_size).symm
        obtain ⟨ihj, ihs, ihl⟩ :=
          ih { s with batch_ind := s.batch_ind + batch_size }
            (by simpa using hlt)
            (by simp; omega)
            (by simp; omega)
        refine ⟨?_, ?_, ?_⟩
        · simp only [runTrainBatches, hstate, List.flatten_cons]
          rw [ihj]
          show trainBatchRows s batch_size ++
            s.train_part.drop (s.batch_ind + batch_size) =
            s.train_part.drop s.batch_ind
          rw [trainBatchRows, ← List.drop_drop, List.take_append_drop]
        · simp only [runTrainBatches, hstate]
          rw [ihs]
        · intro i hi
          cases i with
          | zero =>
              simp only [runTrainBatches, List.getD_cons_zero]
              rw [trainBatchRows, List.length_take, List.length_drop]
              omega
          | succ i2 =>
              have h := ihl i2 (by omega)
              simpa only [runTrainBatches, hstate, List.getD_cons_succ] using h

/-- Core epoch lemma for the test cursor, mirroring `runTrainBatches_core`. -/
theorem runTestBatches_core (batch_size : Nat) :
    ∀ k (s : DState), s.batch_ind_test < s.test_part.length →
      s.test_part.length ≤ s.batch_ind_test + k * batch_size →
      s.batch_ind_test + (k - 1) * batch_size < s.test_part.length →
      (runTestBatches batch_size k s).1.flatten = s.test_part.drop s.batch_ind_test
      ∧ (runTestBatches batch_size k s).2 = { s with batch_ind_test := 0 }
      ∧ ∀ i, i + 1 < k →
          ((runTestBatches batch_size k s).1.getD i []).length = batch_size := by
  intro k
  induction k with
  | zero =>
      intro s h1 h2 h3
      simp only [Nat.zero_mul, Nat.add_zero] at h2
      omega
  | succ k ih =>
      intro s h1 h2 h3
      have hsucc : (k + 1) * batch_size = k * batch_size + batch_size :=
        Nat.succ_mul _ _
      simp only [Nat.add_sub_cancel] at h3
      by_cases hend : s.test_part.length ≤ s.batch_ind_test + batch_size
      · have hk0 : k = 0 := by
          rcases Nat.eq_zero_or_pos k with h | h
          · exact h
          · exfalso
            have hb : batch_size ≤ k * batch_size := by
              calc batch_size = 1 * batch_size := (Nat.one_mul _).symm
                _ ≤ k * batch_size := Nat.mul_le_mul_right _ h
            omega
        subst hk0
        have hrows : testBatchRows s batch_size =
            s.test_part.drop s.batch_ind_test := by
          apply List.take_of_length_le
          rw [List.length_drop]; omega
        have hstate : (get_test_batch s batch_size).2 =
            { s with batch_ind_test := 0 } := by
          simp [get_test_batch, hend]
        refine ⟨?_, ?_, ?_⟩
        · simp [runTestBatches, hrows]
        · simp [runTestBatches, hstate]
        · intro i hi; omega
      · have hlt : s.batch_ind_test + batch_size < s.test_part.length := by omega
        have hstate : (get_test_batch s batch_size).2 =
            { s with batch_ind_test := s.batch_ind_test + batch_size } := by
          simp [get_test_batch, hend]
        have hk1 : 1 ≤ k := by
          rcases Nat.eq_zero_or_pos k with h | h
          · exfalso; subst h
            simp only [Nat.zero_add, Nat.one_mul] at h2
            omega
          · exact h
        have hpred : (k - 1) * batch_size + batch_size = k * batch_size := by
          cases k with
          | zero => omega
          | succ k2 =>
              simp only [Nat.add_sub_cancel]
              exact (Nat.succ_mul k2 batch_size).symm
        obtain ⟨ihj, ihs, ihl⟩ :=
          ih { s with batch_ind_test := s.batch_ind_test + batch_size }
            (by simpa using hlt)
            (by simp; omega)
            (by simp; omega)
        refine ⟨?_, ?_, ?_⟩
        · simp only [runTestBatches, hstate, List.flatten_cons]
          rw [ihj]
          show testBatchRows s batch_size ++
            s.test_part.drop (s.batch_ind_test + batch_size) =
            s.test_part.drop s.batch_ind_test
          rw [testBatchRows, ← List.drop_drop, List.take_append_drop]
        · simp only [runTestBatches, hstate]
          rw [ihs]
        · intro i hi
          cases i with
          | zero =>
              simp only [runTestBatches, List.getD_cons_zero]
              rw [testBatchRows, List.length_take, List.length_drop]
              omega
          | succ i2 =>
              have h := ihl i2 (by omega)
              simpa only [runTestBatches, hstate, List.getD_cons_succ] using h

/-- Claim C1: starting with the train cursor at 0, `ceil(|train|/batch_size)`
consecutive get_train_batch calls fetch, in concatenation, exactly the train
partition once each (each call returning the data of its fetched slice), every
batch except possibly the last has full size, afterwards the state — in
particular the cursor — is back exactly where it started (cursor 0), and the
next call restarts from the beginning of the partition; the same holds for
get_test_batch over the test partition. -/
theorem sequential_batch_epoch (s : DState) (batch_size : Nat)
    (hbs : 1 ≤ batch_size) (htr : s.train_part ≠ []) (hte : s.test_part ≠ [])
    (h0 : s.batch_ind = 0) (h0t : s.batch_ind_test = 0) :
    (runTrainBatches batch_size (ceilDivNat s.train_part.length batch_size) s).1.flatten
      = s.train_part
  ∧ (runTrainBatches batch_size (ceilDivNat s.train_part.length batch_size) s).2 = s
  ∧ (∀ i, i + 1 < ceilDivNat s.train_part.length batch_size →
      (((runTrainBatches batch_size (ceilDivNat s.train_part.length batch_size) s).1.getD
        i []).length = batch_size))
  ∧ trainBatchRows
      (runTrainBatches batch_size (ceilDivNat s.train_part.length batch_size) s).2
      batch_size = s.train_part.take batch_size
  ∧ (∀ t : DState, (get_train_batch t batch_size).1 =
      get_data_part t (trainBatchRows t batch_size))
  ∧ (runTestBatches batch_size (ceilDivNat s.test_part.length batch_size) s).1.flatten
      = s.test_part
  ∧ (runTestBatches batch_size (ceilDivNat s.test_part.length batch_size) s).2 = s
  ∧ (∀ i, i + 1 < ceilDivNat s.test_part.length batch_size →
      (((runTestBatches batch_size (ceilDivNat s.test_part.length batch_size) s).1.getD
        i []).length = batch_size))
  ∧ testBatchRows
      (runTestBatches batch_size (ceilDivNat s.test_part.length batch_size) s).2
      batch_size = s.test_part.take batch_size
  ∧ (∀ t : DState, (get_test_batch t batch_size).1 =
      get_data_part t (testBatchRows t batch_size)) := by
  have hntr : 0 < s.train_part.length := List.length_pos.mpr htr
  have hnte : 0 < s.test_part.length := List.length_pos.mpr hte
  obtain ⟨hcov, hexact⟩ := ceilDivNat_bounds s.train_part.length batch_size hntr hbs
  obtain ⟨hcovt, hexactt⟩ := ceilDivNat_bounds s.test_part.length batch_size hnte hbs
  obtain ⟨hj, hs2, hl⟩ :=
    runTrainBatches_core batch_size (ceilDivNat s.train_part.length batch_size) s
      (by omega) (by omega) (by omega)
  obtain ⟨hjt, hs2t, hlt⟩ :=
    runTestBatches_core batch_size (ceilDivNat s.test_part.length batch_size) s
      (by omega) (by omega) (by omega)
  have heta : ({ s with batch_ind := 0 } : DState) = s := by rw [← h0]
  have hetat : ({ s with batch_ind_test := 0 } : DState) = s := by rw [← h0t]
  refine ⟨?_, ?_, hl, ?_, fun t => rfl, ?_, ?_, hlt, ?_, fun t => rfl⟩
  · rw [hj, h0, List.drop_zero]
  · rw [hs2, heta]
  · rw [hs2, heta, trainBatchRows, h0, List.drop_zero]
  · rw [hjt, h0t, List.drop_zero]
  · rw [hs2t, hetat]
  · rw [hs2t, hetat, testBatchRows, h0t, List.drop_zero]

/-- Claim C1 witness: on the concrete state with train [0..4], test [5,6,7]
and batch size 2, three train batches concatenate to the train partition and
two test batches concatenate to the test partition. -/
theorem sequential_batch_epoch_witness :
    (runTrainBatches 2 3 w1State).1.flatten = [0, 1, 2, 3, 4]
  ∧ (runTestBatches 2 2 w1State).1.flatten = [5, 6, 7] :=
  ⟨(sequential_batch_epoch w1State 2 (by decide) (by decide) (by decide)
      rfl rfl).1,
   (sequential_batch_epoch w1State 2 (by decide) (by decide) (by decide)
      rfl rfl).2.2.2.2.2.1⟩

/-- Concatenating `k` consecutive size-`bn` slices of a list yields its first
`k * bn` elements. -/
theorem flatten_range_slices {α : Type} (L : List α) (bn k : Nat) :
    ((List.range k).map fun n => (L.drop (n * bn)).take bn).flatten =
      L.take (k * bn) := by
  induction k with
  | zero => simp
  | succ k ih =>
      rw [List.range_succ, List.map_append, List.flatten_append]
      simp only [List.map_cons, List.map_nil, List.flatten_cons,
        List.flatten_nil, List.append_nil]
      rw [ih, Nat.succ_mul, List.take_add]

/-- `ceil(|L|/bn)` consecutive size-`bn` slices concatenate to all of `L`. -/
theorem slices_flatten_eq {α : Type} (L : List α) (bn : Nat) (hbn : 1 ≤ bn) :
    ((List.range (ceilDivNat L.length bn)).map fun n =>
      (L.drop (n * bn)).take bn).flatten = L := by
  rw [flatten_range_slices]
  rcases eq_or_ne L [] with h | h
  · subst h; simp
  · have hlen : 0 < L.length := List.length_pos.mpr h
    obtain ⟨hcov, _⟩ := ceilDivNat_bounds L.length bn hlen hbn
    exact List.take_of_length_le hcov

/-- Every slice before the last one in a `ceil(|L|/bn)`-slice covering has
full length `bn`. -/
theorem slice_length_of_lt (L : List Nat) (bn i k : Nat) (hbn : 1 ≤ bn)
    (hk : k = ceilDivNat L.length bn) (hi : i + 1 < k) :
    ((L.drop (i * bn)).take bn).length = bn := by
  have hk1 : 1 ≤ k := by omega
  have hlen : 0 < L.length := by
    by_contra h
    have h0 : L.length = 0 := by omega
    have hz : k = 0 := by
      rw [hk, h0]
      show (0 + bn - 1) / bn = 0
      rw [Nat.zero_add]
      exact Nat.div_eq_of_lt (by omega)
    omega
  obtain ⟨hcov, hexact⟩ := ceilDivNat_bounds L.length bn hlen hbn
  rw [← hk] at hexact
  have hmul : (i + 1) * bn ≤ (k - 1) * bn :=
    Nat.mul_le_mul_right _ (by omega)
  have hs : (i + 1) * bn = i * bn + bn := Nat.succ_mul _ _
  rw [List.length_take, List.length_drop]
  omega

/-- The `i`-th of the `ceil(|L|/bn)` covering slices, for `i` before the last,
has full length `bn`. -/
theorem slices_getD_length (L : List Nat) (bn : Nat) (hbn : 1 ≤ bn) (i : Nat)
    (hi : i + 1 < ceilDivNat L.length bn) :
    (((List.range (ceilDivNat L.length bn)).map fun n =>
        (L.drop (n * bn)).take bn).getD i []).length = bn := by
  set k := ceilDivNat L.length bn with hk
  have hik : i <
      ((List.range k).map fun n => (L.drop (n * bn)).take bn).length := by
    simp only [List.length_map, List.length_range]; omega
  rw [List.getD_eq_getElem _ _ hik]
  simp only [List.getElem_map, List.getElem_range]
  exact slice_length_of_lt L bn i k hbn hk hi

/-- Claim C6: test_iterator(batch_num) yields exactly
`ceil(|test|/batch_num)` batches whose index slices concatenate to the entire
test partition once, with only the last batch possibly shorter than
batch_num; each yielded element is the fetched data of its slice; the result
is a pure function of the partition alone — independent of all three
sequential batch cursors (and of the other partitions) — so each fresh call
produces the same fresh full pass from the start.  The same holds for
validation_iterator over the validation partition. -/
theorem iterator_full_pass (s : DState) (batch_num : Nat)
    (hbn : 1 ≤ batch_num) :
    (test_iterator s batch_num).length = ceilDivNat s.test_part.length batch_num
  ∧ (testIteratorRows s batch_num).flatten = s.test_part
  ∧ (∀ i, i + 1 < ceilDivNat s.test_part.length batch_num →
      ((testIteratorRows s batch_num).getD i []).length = batch_num)
  ∧ test_iterator s batch_num = (testIteratorRows s batch_num).map (fun rows =>
      (get_data_part s rows, (rows.insertionSort (fun a b => a ≤ b)).map s.vmap))
  ∧ (∀ c1 c2 c3 tp vp,
      test_iterator { s with batch_ind := c1, batch_ind_valid := c2, batch_ind_test := c3, train_part := tp, validation_part := vp } batch_num = test_iterator s batch_num)
  ∧ (validation_iterator s batch_num).length =
      ceilDivNat s.validation_part.length batch_num
  ∧ (validIteratorRows s batch_num).flatten = s.validation_part
  ∧ (∀ i, i + 1 < ceilDivNat s.validation_part.length batch_num →
      ((validIteratorRows s batch_num).getD i []).length = batch_num)
  ∧ (∀ c1 c2 c3 tp tep,
      validation_iterator { s with batch_ind := c1, batch_ind_valid := c2, batch_ind_test := c3, train_part := tp, test_part := tep } batch_num = validation_iterator s batch_num) := by
  refine ⟨?_, ?_, ?_, rfl, fun c1 c2 c3 tp vp => rfl, ?_, ?_, ?_,
    fun c1 c2 c3 tp tep => rfl⟩
  · simp [test_iterator, testIteratorRows]
  · exact slices_flatten_eq s.test_part batch_num hbn
  · exact fun i hi => slices_getD_length s.test_part batch_num hbn i hi
  · simp [validation_iterator, validIteratorRows]
  · exact slices_flatten_eq s.validation_part batch_num hbn
  · exact fun i hi => slices_getD_length s.validation_part batch_num hbn i hi

/-- Claim C6 witness: on the concrete state with test [0, 1, 2] and
validation [3, 4], the iterator slices for batch_num = 2 concatenate to the
full partitions. -/
theorem iterator_full_pass_witness :
    (testIteratorRows w6State 2).flatten = [0, 1, 2]
  ∧ (validIteratorRows w6State 2).flatten = [3, 4] :=
  ⟨(iterator_full_pass w6State 2 (by decide)).2.1,
   (iterator_full_pass w6State 2 (by decide)).2.2.2.2.2.2.1⟩

/-- Counting positions `j` of a list whose element satisfies `p` is counting
the elements satisfying `p`. -/
theorem countP_range_getD {α : Type} (L : List α) (d : α) (p : α → Bool) :
    List.countP (fun j => p (L.getD j d)) (List.range L.length) =
      L.countP p := by
  induction L with
  | nil => simp
  | cons a L ih =>
      rw [List.length_cons, List.range_succ_eq_map, List.countP_cons,
        List.countP_map]
      have hc : ((fun j => p ((a :: L).getD j d)) ∘ Nat.succ) =
          fun j => p (L.getD j d) := by
        funext j
        simp [Function.comp]
      rw [hc, ih]
      simp [List.countP_cons]

/-- `np.where(labels[part] == l)` finds one position per sample of `part`
with label `l`. -/
theorem wherePositions_length (s : DState) (part : List Nat) (l : Int) :
    (wherePositions s part l).length =
      part.countP fun r => s.labels r == l := by
  rw [wherePositions, ← List.countP_eq_length_filter]
  exact countP_range_getD part 0 (fun r => s.labels r == l)

/-- Members of `wherePositions` are in-range positions of samples labelled
`l`. -/
theorem mem_wherePositions (s : DState) (part : List Nat) (l : Int) (j : Nat)
    (hj : j ∈ wherePositions s part l) :
    j < part.length ∧ s.labels (part.getD j 0) = l := by
  rw [wherePositions, List.mem_filter] at hj
  obtain ⟨hr, hp⟩ := hj
  exact ⟨List.mem_range.mp hr, by simpa using hp⟩

/-- When the class has at least `lbs` samples in the partition, its balanced
chunk has exactly `lbs` entries. -/
theorem classChunk_length (π : Int → List Nat → List Nat) (s : DState)
    (part : List Nat) (lbs : Nat) (l : Int)
    (hπ : (π l (wherePositions s part l)).Perm (wherePositions s part l))
    (hcnt : lbs ≤ (wherePositions s part l).length) :
    (classChunk π s part lbs l).length = lbs := by
  rw [classChunk, List.length_map, List.length_take, hπ.length_eq]
  omega

/-- Every entry of a class chunk is a sample of the partition labelled with
the chunk's class. -/
theorem classChunk_label (π : Int → List Nat → List Nat) (s : DState)
    (part : List Nat) (lbs : Nat) (l : Int)
    (hπ : (π l (wherePositions s part l)).Perm (wherePositions s part l)) :
    ∀ r ∈ classChunk π s part lbs l, s.labels r = l ∧ r ∈ part := by
  intro r hr
  rw [classChunk, List.mem_map] at hr
  obtain ⟨j, hj, rfl⟩ := hr
  have hj2 : j ∈ wherePositions s part l :=
    hπ.mem_iff.mp (List.mem_of_mem_take hj)
  obtain ⟨hlt, hlab⟩ := mem_wherePositions s part l j hj2
  refine ⟨hlab, ?_⟩
  rw [List.getD_eq_getElem part 0 hlt]
  exact List.getElem_mem _

/-- Per-class count of a flattened list of class chunks over duplicate-free
classes: each class present contributes exactly `lbs` samples. -/
theorem balanced_chunks_countP (π : Int → List Nat → List Nat) (s : DState)
    (part : List Nat) (lbs : Nat)
    (hπ : ∀ l xs, (π l xs).Perm xs) :
    ∀ T : List Int, T.Nodup →
      (∀ l ∈ T, lbs ≤ (wherePositions s part l).length) →
      ∀ l2 ∈ T,
        ((T.map (classChunk π s part lbs)).flatten.countP
          fun r => s.labels r == l2) = lbs := by
  intro T
  induction T with
  | nil => intro _ _ l2 h; simp at h
  | cons a T ih =>
      intro hnd hcnt l2 hl2
      rw [List.map_cons, List.flatten_cons, List.countP_append]
      rcases List.mem_cons.mp hl2 with rfl | hl2T
      · have h1 : ((classChunk π s part lbs l2).countP
            fun r => s.labels r == l2) = (classChunk π s part lbs l2).length := by
          rw [List.countP_eq_length]
          intro r hr
          have h := (classChunk_label π s part lbs l2 (hπ _ _) r hr).1
          simpa using h
        have h2 : (((T.map (classChunk π s part lbs)).flatten.countP
            fun r => s.labels r == l2)) = 0 := by
          rw [List.countP_eq_zero]
          intro r hr
          rw [List.mem_flatten] at hr
          obtain ⟨chunk, hchunk, hrchunk⟩ := hr
          rw [List.mem_map] at hchunk
          obtain ⟨l3, hl3, rfl⟩ := hchunk
          have hlab := (classChunk_label π s part lbs l3 (hπ _ _) r hrchunk).1
          have hne : l3 ≠ l2 := by
            rintro rfl
            exact (List.nodup_cons.mp hnd).1 hl3
          simpa [hlab] using hne
        rw [h1, h2,
          classChunk_length π s part lbs l2 (hπ _ _)
            (hcnt l2 (List.mem_cons_self _ _))]
        omega
      · have h1 : ((classChunk π s part lbs a).countP
            fun r => s.labels r == l2) = 0 := by
          rw [List.countP_eq_zero]
          intro r hr
          have hlab := (classChunk_label π s part lbs a (hπ _ _) r hr).1
          have hne : a ≠ l2 := by
            rintro rfl
            exact (List.nodup_cons.mp hnd).1 hl2T
          simpa [hlab] using hne
        rw [h1,
          ih (List.nodup_cons.mp hnd).2
            (fun l hl => hcnt l (List.mem_cons_of_mem _ hl)) l2 hl2T]
        omega

/-- Every sample of a balanced train batch comes from the train partition. -/
theorem balanced_rows_subset (π : Int → List Nat → List Nat) (s : DState)
    (batch_size : Nat) (hπ : ∀ l xs, (π l xs).Perm xs) :
    ∀ r ∈ balancedTrainRows π s batch_size, r ∈ s.train_part := by
  intro r hr
  rw [balancedTrainRows, List.mem_flatten] at hr
  obtain ⟨chunk, hchunk, hr2⟩ := hr
  rw [List.mem_map] at hchunk
  obtain ⟨l, hl, rfl⟩ := hchunk
  exact (classChunk_label π s s.train_part _ l (hπ _ _) r hr2).2

/-- Claim C5: if every class of `label_types` (the classes present at
construction time) has at least `batch_size // num_classes` samples in the
train partition, then get_balanced_train_batch(batch_size) draws exactly
`batch_size // num_classes` samples of each class, all taken from the train
partition, and returns the fetched data of those rows. -/
theorem balanced_train_batch_counts (π : Int → List Nat → List Nat)
    (s : DState) (batch_size : Nat)
    (hπ : ∀ l xs, (π l xs).Perm xs)
    (hnd : s.label_types.Nodup)
    (hcnt : ∀ l ∈ s.label_types,
      batch_size / s.label_types.length ≤
        s.train_part.countP fun r => s.labels r == l) :
    (∀ l ∈ s.label_types,
      ((balancedTrainRows π s batch_size).countP fun r => s.labels r == l) =
        batch_size / s.label_types.length)
  ∧ (∀ r ∈ balancedTrainRows π s batch_size, r ∈ s.train_part)
  ∧ (get_balanced_train_batch π s batch_size).1 =
      get_data_part s (balancedTrainRows π s batch_size) := by
  refine ⟨?_, balanced_rows_subset π s batch_size hπ, rfl⟩
  intro l2 hl2
  have hcnt2 : ∀ l ∈ s.label_types,
      batch_size / s.label_types.length ≤
        (wherePositions s s.train_part l).length := by
    intro l hl
    rw [wherePositions_length]
    exact hcnt l hl
  exact balanced_chunks_countP π s s.train_part _ hπ s.label_types hnd hcnt2
    l2 hl2

/-- Claim C5 witness: on the concrete three-class state (classes {0,1,2},
four train samples per class) with batch_size 9, the balanced batch holds
exactly 3 samples of class 0 (and the identity permutation is a valid draw). -/
theorem balanced_train_batch_counts_witness :
    ((balancedTrainRows (fun _ xs => xs) w5State 9).countP
      fun r => w5State.labels r == 0) = 3 :=
  (balanced_train_batch_counts (fun _ xs => xs) w5State 9
    (fun _ xs => List.Perm.refl xs) (by decide) (by decide)).1 0 (by decide)

/-- `getD` on `zipWith` within bounds applies the function to the two `getD`
values. -/
theorem getD_zipWith {α β γ : Type} (f : α → β → γ) (as : List α)
    (bs : List β) (k : Nat) (d : γ) (da : α) (db : β)
    (h1 : k < as.length) (h2 : k < bs.length) :
    (List.zipWith f as bs).getD k d = f (as.getD k da) (bs.getD k db) := by
  have hk : k < (List.zipWith f as bs).length := by
    rw [List.length_zipWith]; omega
  rw [List.getD_eq_getElem _ _ hk, List.getD_eq_getElem _ _ h1,
    List.getD_eq_getElem _ _ h2]
  simp [List.getElem_zipWith]

/-- Claim C8: write_preds(preds, fname) produces exactly one row per
test-partition sample (the sorted test indices are a duplicate-free
permutation of the test partition, sorted ascending), and the `k`-th row
consists of the metadata fields (sample identifier and group-key fields) of
the `k`-th smallest test index, its true label, and `preds[k]` — the supplied
prediction array aligned one-to-one with the sorted test indices — in that
column order. -/
theorem write_preds_spec (s : DState) (preds : List Int)
    (hlen : preds.length = s.test_part.length)
    (hnd : s.test_part.Nodup) :
    (write_preds_rows s preds).length = s.test_part.length
  ∧ (s.test_part.insertionSort (fun a b => a ≤ b)).Perm s.test_part
  ∧ List.Sorted (fun a b => a ≤ b)
      (s.test_part.insertionSort (fun a b => a ≤ b))
  ∧ (s.test_part.insertionSort (fun a b => a ≤ b)).Nodup
  ∧ ∀ k, k < s.test_part.length →
      (write_preds_rows s preds).getD k ((0, 0, 0, 0), 0, 0) =
        (s.vmap ((s.test_part.insertionSort (fun a b => a ≤ b)).getD k 0),
         s.labels ((s.test_part.insertionSort (fun a b => a ≤ b)).getD k 0),
         preds.getD k 0) := by
  have hperm := List.perm_insertionSort (fun a b => a ≤ b) s.test_part
  have hslen : (s.test_part.insertionSort (fun a b => a ≤ b)).length =
      s.test_part.length := hperm.length_eq
  refine ⟨?_, hperm, List.sorted_insertionSort _ _, hperm.nodup_iff.mpr hnd,
    ?_⟩
  · simp only [write_preds_rows, List.length_zipWith, hslen, hlen,
      Nat.min_self]
  · intro k hk
    simp only [write_preds_rows]
    exact getD_zipWith _ _ _ k _ 0 0 (by omega) (by omega)

/-- Claim C8 witness: on the concrete state with unsorted test partition
[2, 0, 1] and predictions [7, 8, 9], the export has 3 rows and row 0 pairs
the smallest test index 0 with the first prediction 7. -/
theorem write_preds_spec_witness :
    (write_preds_rows w8State [7, 8, 9]).length = 3
  ∧ (write_preds_rows w8State [7, 8, 9]).getD 0 ((0, 0, 0, 0), 0, 0) =
      ((0, 0, 0, 0), 0, 7) :=
  ⟨(write_preds_spec w8State [7, 8, 9] (by decide) (by decide)).1,
   (write_preds_spec w8State [7, 8, 9] (by decide) (by decide)).2.2.2.2 0
     (by decide)⟩
